import Mathlib

/-!
Verification of the cluster-orchestration layer of `autodist`
(`autodist/network.py`), as a shallow embedding in Lean 4.

Modelling conventions:
* Python strings are Lean `String`s; where Python splits, counts or compares
  characters we work on the underlying `List Char` (`String.data`), which
  matches Python's code-point semantics.
* Python dicts built from key/value pairs are association lists built
  left-to-right with "later value wins, first position kept" semantics
  (`pyDict`), and `dict.get` / `d[k]` lookups are `List.lookup`.
* Fallible Python code (code that can raise) returns `Except PyErr _` or
  `Option _`; the stateful launch/termination loops are embedded as explicit
  state-passing functions that also return the uncaught exception, if any.
* External effects (interface enumeration, pid allocation, process liveness)
  are parameters of the embedding, quantified over in the theorems.
-/

deriving instance DecidableEq for Except

namespace Autodist

/-- Python exception classes raised by the code paths modelled here. -/
inductive PyErr
  | valueError
  | processLookupError
  | attributeError
  | launchFailure
deriving DecidableEq

/-! ### Python string primitives -/

/-- Python `s1 or s2` for strings: the empty string is falsy.
`none` models Python `None` (e.g. an unset environment variable). -/
def pyOr (v : Option String) (d : String) : String :=
  match v with
  | none => d
  | some s => if s = "" then d else s

/-- Python `str.split(sep)` with a one-character separator, on the character
list: `"".split(c) == [""]`, and empty pieces are kept. -/
def pySplit (c : Char) : List Char → List (List Char)
  | [] => [[]]
  | x :: xs =>
    match pySplit c xs with
    | [] => [[]]
    | h :: t => if x = c then [] :: h :: t else (x :: h) :: t

/-- `a.split(':')`, returning strings, as used throughout `network.py`. -/
def splitColon (a : String) : List String :=
  (pySplit ':' a.data).map String.mk

/-- Python `str.rpartition(':')` restricted to what `_get_ip_from_address`
uses: `some (before, after)` splits at the last colon, `none` when there is
no colon (Python then returns `('', '', s)`, i.e. an empty head). -/
def rpartColon : List Char → Option (List Char × List Char)
  | [] => none
  | c :: cs =>
    match rpartColon cs with
    | some (l, r) => some (c :: l, r)
    | none => if c = ':' then some ([], cs) else none

/-- Lexicographic comparison of strings by code point: Python's `<=` on
`str`, used by `sorted`. -/
def pyLe (a b : String) : Prop :=
  a.data ≤ b.data

instance pyLe.decRel : DecidableRel pyLe :=
  fun a b => inferInstanceAs (Decidable (a.data ≤ b.data))

/-- Python `sorted` on a list of strings. -/
def pySorted (l : List String) : List String :=
  List.insertionSort pyLe l

/-- First index of an element satisfying `p`, or `none`: the Python idiom
`[i for i, a in enumerate(l) if p(a)][0]`, with `none` standing for the
`IndexError` raised on an empty comprehension. -/
def firstIdxFrom {α : Type} (p : α → Bool) : List α → Option Nat
  | [] => none
  | a :: l => if p a then some 0 else (firstIdxFrom p l).map (· + 1)

/-- `sub.data` occurs contiguously inside `s.data`: Python `sub in s`. -/
def SubstrOf (sub s : List Char) : Prop :=
  ∃ l r, l ++ sub ++ r = s

/-- Boolean prefix test on character lists. -/
def isPrefixCh : List Char → List Char → Bool
  | [], _ => true
  | _ :: _, [] => false
  | a :: as, b :: bs => a == b && isPrefixCh as bs

/-- Executable substring test implementing Python `sub in s`. -/
def containsSub (sub s : String) : Bool :=
  (List.range (s.data.length + 1)).any (fun i => isPrefixCh sub.data (s.data.drop i))

/-! ### Python dict building -/

/-- One Python dict assignment `d[k] = v` on an association list: an existing
key keeps its position and gets the new value; a new key is appended. -/
def pyDictInsert {β : Type} (acc : List (String × β)) (kv : String × β) :
    List (String × β) :=
  if acc.any (fun p => p.1 = kv.1) then
    acc.map (fun p => if p.1 = kv.1 then (p.1, kv.2) else p)
  else acc ++ [kv]

/-- Python `dict(pairs)`: left-to-right insertion. -/
def pyDict {β : Type} (ps : List (String × β)) : List (String × β) :=
  ps.foldl pyDictInsert []

/-- Run a fallible step over a list, stopping at the first raised exception:
the evaluation order of `dict(f(a) for a in l)` and of Python `for` loops
that can raise. -/
def mapExcept {α β : Type} (f : α → Except PyErr β) : List α → Except PyErr (List β)
  | [] => .ok []
  | x :: xs =>
    match f x with
    | .error e => .error e
    | .ok y =>
      match mapExcept f xs with
      | .error e => .error e
      | .ok ys => .ok (y :: ys)

/-! ### Lemmas about the string primitives -/

theorem pySplit_ne_nil (c : Char) (s : List Char) : pySplit c s ≠ [] := by
  induction s with
  | nil => simp [pySplit]
  | cons x xs ih =>
    simp only [pySplit]
    cases h : pySplit c xs with
    | nil => simp
    | cons h t =>
      by_cases hx : x = c <;> simp [hx]

theorem length_pySplit (c : Char) (s : List Char) :
    (pySplit c s).length = s.count c + 1 := by
  induction s with
  | nil => simp [pySplit]
  | cons x xs ih =>
    simp only [pySplit]
    cases h : pySplit c xs with
    | nil => exact absurd h (pySplit_ne_nil c xs)
    | cons hd tl =>
      rw [h] at ih
      by_cases hx : x = c
      · simp only [hx, if_pos rfl, List.length_cons, List.count_cons_self]
        simpa using ih
      · simp only [if_neg hx, List.length_cons]
        rw [List.count_cons_of_ne (Ne.symm hx)]
        simpa using ih

theorem length_splitColon (a : String) :
    (splitColon a).length = a.data.count ':' + 1 := by
  simp [splitColon, length_pySplit]

theorem firstIdxFrom_eq_none_iff {α : Type} (p : α → Bool) (l : List α) :
    firstIdxFrom p l = none ↔ ∀ a ∈ l, p a = false := by
  induction l with
  | nil => simp [firstIdxFrom]
  | cons x xs ih =>
    by_cases hx : p x
    · simp [firstIdxFrom, hx]
    · simp only [firstIdxFrom, if_neg hx, Option.map_eq_none', List.mem_cons]
      constructor
      · intro h a ha
        rcases ha with rfl | ha
        · exact Bool.eq_false_iff.2 hx
        · exact (ih.1 h) a ha
      · intro h
        exact ih.2 (fun a ha => h a (Or.inr ha))

theorem firstIdxFrom_eq_some {α : Type} (p : α → Bool) (l : List α) (d : α)
    (i : Nat) (h : firstIdxFrom p l = some i) :
    i < l.length ∧ p (l.getD i d) = true ∧ ∀ j, j < i → p (l.getD j d) = false := by
  induction l generalizing i with
  | nil => simp [firstIdxFrom] at h
  | cons x xs ih =>
    by_cases hx : p x
    · simp only [firstIdxFrom, if_pos hx, Option.some.injEq] at h
      subst h
      refine ⟨by simp, by simpa using hx, ?_⟩
      intro j hj
      omega
    · simp only [firstIdxFrom, if_neg hx, Option.map_eq_some'] at h
      obtain ⟨i', hi', rfl⟩ := h
      obtain ⟨h1, h2, h3⟩ := ih i' hi'
      refine ⟨by simpa using h1, by simpa using h2, ?_⟩
      intro j hj
      cases j with
      | zero => simpa using Bool.eq_false_iff.2 hx
      | succ j' => simpa using h3 j' (by omega)

theorem isPrefixCh_iff (l1 l2 : List Char) :
    isPrefixCh l1 l2 = true ↔ ∃ t, l1 ++ t = l2 := by
  induction l1 generalizing l2 with
  | nil => simp [isPrefixCh]
  | cons a as ih =>
    cases l2 with
    | nil => simp [isPrefixCh]
    | cons b bs =>
      simp only [isPrefixCh, Bool.and_eq_true, beq_iff_eq, ih, List.cons_append,
        List.cons.injEq]
      constructor
      · rintro ⟨rfl, t, rfl⟩
        exact ⟨t, rfl, rfl⟩
      · rintro ⟨t, rfl, rfl⟩
        exact ⟨rfl, t, rfl⟩

theorem containsSub_iff (sub s : String) :
    containsSub sub s = true ↔ SubstrOf sub.data s.data := by
  simp only [containsSub, List.any_eq_true, List.mem_range, SubstrOf]
  constructor
  · rintro ⟨i, _, hp⟩
    obtain ⟨t, ht⟩ := (isPrefixCh_iff _ _).1 hp
    exact ⟨s.data.take i, t, by
      rw [List.append_assoc, ht, List.take_append_drop]⟩
  · rintro ⟨l, r, h⟩
    refine ⟨l.length, ?_, ?_⟩
    · have hlen := congrArg List.length h
      simp only [List.length_append] at hlen
      omega
    · rw [isPrefixCh_iff]
      refine ⟨r, ?_⟩
      have hd : s.data.drop l.length = sub.data ++ r := by
        rw [← h, List.append_assoc, List.drop_left]
      rw [hd]

theorem mapExcept_ok_mem {α β : Type} (f : α → Except PyErr β) (l : List α)
    (ys : List β) (h : mapExcept f l = .ok ys) :
    ∀ a ∈ l, ∃ b, f a = .ok b := by
  induction l generalizing ys with
  | nil => simp
  | cons x xs ih =>
    intro a ha
    simp only [mapExcept] at h
    cases hx : f x with
    | error e => rw [hx] at h; exact absurd h (by simp)
    | ok y =>
      rw [hx] at h
      cases hxs : mapExcept f xs with
      | error e => rw [hxs] at h; exact absurd h (by simp)
      | ok ys' =>
        rcases List.mem_cons.1 ha with rfl | ha
        · exact ⟨y, hx⟩
        · exact ih ys' hxs a ha

theorem mapExcept_error_of_mem {α β : Type} (f : α → Except PyErr β)
    (e0 : PyErr) (hf : ∀ a e, f a = .error e → e = e0) (l : List α)
    (a : α) (ha : a ∈ l) (e : PyErr) (hae : f a = .error e) :
    mapExcept f l = .error e0 := by
  induction l with
  | nil => simp at ha
  | cons x xs ih =>
    simp only [mapExcept]
    cases hx : f x with
    | error ex => rw [hf x ex hx]
    | ok y =>
      rcases List.mem_cons.1 ha with rfl | ha
      · rw [hx] at hae; exact absurd hae (by simp)
      · rw [ih ha]

/-! ### The `ipaddress` standard-library model

`network.py` classifies addresses through Python's `ipaddress.ip_address`.
That parser is standard-library code, modelled here after its documented
behaviour: an IPv4 dotted quad (decimal octets, no leading zeros), otherwise
an IPv6 literal (hex hextets, at most one `::` compression).  The
IPv4-mapped tail form (`::ffff:1.2.3.4`) is not modelled; no input in this
development uses it. -/

/-- A parsed IP address: `IPv4Address` or `IPv6Address` (value as a number). -/
inductive IPAddr
  | v4 (a b c d : Nat)
  | v6 (val : Nat)
deriving DecidableEq

/-- Value of one hexadecimal digit. -/
def hexDigitVal (c : Char) : Option Nat :=
  if '0' ≤ c ∧ c ≤ '9' then some (c.toNat - 48)
  else if 'a' ≤ c ∧ c ≤ 'f' then some (c.toNat - 87)
  else if 'A' ≤ c ∧ c ≤ 'F' then some (c.toNat - 55)
  else none

/-- `ipaddress` `_parse_hextet`: one to four hex digits. -/
def parseHextet (s : List Char) : Option Nat :=
  if s.length = 0 ∨ 4 < s.length then none
  else s.foldl (fun acc c =>
    match acc, hexDigitVal c with
    | some a, some v => some (16 * a + v)
    | _, _ => none) (some 0)

/-- `ipaddress` `_parse_octet`: decimal digits only, at most three, no
leading zero, value at most 255. -/
def parseDecOctet (s : List Char) : Option Nat :=
  if s.length = 0 then none
  else if ¬ s.all (fun c => c.isDigit) then none
  else if 3 < s.length then none
  else if 1 < s.length ∧ s.headD '0' = '0' then none
  else
    let v := s.foldl (fun acc c => 10 * acc + (c.toNat - 48)) 0
    if 255 < v then none else some v

/-- IPv4 dotted-quad parsing: exactly four octets. -/
def parseIPv4 (s : List Char) : Option (Nat × Nat × Nat × Nat) :=
  match pySplit '.' s with
  | [a, b, c, d] => do
    let a' ← parseDecOctet a
    let b' ← parseDecOctet b
    let c' ← parseDecOctet c
    let d' ← parseDecOctet d
    some (a', b', c', d')
  | _ => none

/-- Accumulate sixteen-bit groups into an address value. -/
def foldHextets (vals : List Nat) (init : Nat) : Nat :=
  vals.foldl (fun a v => a * 65536 + v) init

/-- IPv6 textual parsing, after `ipaddress._ip_int_from_string`: split on
colons, locate the single `::` compression among the interior parts, check
the leading/trailing-colon side conditions, then fold the hextets with the
skipped groups as zeros. -/
def parseIPv6 (s : List Char) : Option Nat :=
  let parts := pySplit ':' s
  if parts.length < 3 then none
  else if 9 < parts.length then none
  else
    let inner := (parts.drop 1).dropLast
    if 1 < (inner.filter (fun p => p.isEmpty)).length then none
    else
      match firstIdxFrom (fun p => p.isEmpty) inner with
      | some i0 =>
        let si := i0 + 1
        let hi0 := si
        let lo0 := parts.length - si - 1
        if (parts.headD [':']).isEmpty ∧ hi0 - 1 ≠ 0 then none
        else if (parts.getLastD [':']).isEmpty ∧ lo0 - 1 ≠ 0 then none
        else
          let partsHi := if (parts.headD [':']).isEmpty then hi0 - 1 else hi0
          let partsLo := if (parts.getLastD [':']).isEmpty then lo0 - 1 else lo0
          if 8 - (partsHi + partsLo) < 1 then none
          else do
            let hiVals ← (parts.take partsHi).mapM parseHextet
            let loVals ← (parts.drop (parts.length - partsLo)).mapM parseHextet
            some (foldHextets loVals
              ((foldHextets hiVals 0) * 65536 ^ (8 - (partsHi + partsLo))))
      | none =>
        if parts.length ≠ 8 then none
        else do
          let vals ← parts.mapM parseHextet
          some (foldHextets vals 0)

/-- `ipaddress.ip_address`: try IPv4, then IPv6, `none` on `ValueError`. -/
def ipAddressOf (s : List Char) : Option IPAddr :=
  match parseIPv4 s with
  | some (a, b, c, d) => some (.v4 a b c d)
  | none => (parseIPv6 s).map .v6

/-- `is_loopback` of the parsed address: `127.0.0.0/8` for IPv4, `::1` for
IPv6. -/
def isLoopbackIP : IPAddr → Bool
  | .v4 a _ _ _ => a == 127
  | .v6 v => v == 1

/-- Python `str.strip("[]")`: remove brackets from both ends. -/
def stripBrackets (s : List Char) : List Char :=
  ((s.dropWhile (fun c => c == '[' || c == ']')).reverse.dropWhile
    (fun c => c == '[' || c == ']')).reverse

/-! ### Address classifier (`network.py` lines 424-478) -/

/-- `_get_ip_from_address`: keep what precedes the last colon (or the whole
string when there is no colon or an empty head), map `localhost` to
`127.0.0.1`, strip IPv6 brackets, and parse; `none` is the propagated
`ValueError`. -/
def getIpFromAddress (address : String) : Option IPAddr :=
  let ip : String :=
    match rpartColon address.data with
    | some (l, _) => String.mk l
    | none => ""
  let ip := if ip = "" then address else ip
  let ip := if ip = "localhost" then "127.0.0.1" else ip
  ipAddressOf (stripBrackets ip.data)

/-- `is_loopback_address`: loopback test on the parsed IP. -/
def isLoopbackAddress (address : String) : Option Bool :=
  (getIpFromAddress address).map isLoopbackIP

/-! ### Topology builder (`Cluster._get_default_cluster_spec`) -/

/-- The resource-spec interface used by `Cluster.__init__`: a set of node
identities (modelled as a list; the builder sorts) and the chief address. -/
structure ResourceSpec where
  nodes : List String
  chief : String

/-- `Cluster._get_default_cluster_spec`.

Modelled from the spec for the missing constant: `DEFAULT_PORT_RANGE` is
defined in `autodist/const.py`, which is not among the sources; per the spec
it is a sequential counter of ports with a fixed starting port.  The call
site `next(DEFAULT_PORT_RANGE)` in `network.py` advances a module-level
iterator object created once per process at import time, so the embedding
threads that iterator's state explicitly: `portCtr` is the next port the
iterator will yield, and the build returns the advanced counter alongside
the topology `{"worker": [ip:port, ...]}` over the sorted node identities. -/
def getDefaultClusterSpec (nodes : List String) (portCtr : Nat) :
    List (String × List String) × Nat :=
  let sortedNodes := pySorted nodes
  ([("worker",
      sortedNodes.enum.map (fun p => p.2 ++ ":" ++ toString (portCtr + p.1)))],
   portCtr + sortedNodes.length)

/-! ### Cluster manager state (`Cluster.__init__`) -/

/-- A process handle (`subprocess.Popen` object or remote handle): carries
the pid that `terminate` dereferences. -/
structure Handle where
  pid : Nat
deriving DecidableEq

/-- The fields `Cluster.__init__` computes. -/
structure Cluster where
  clusterSpec : List (String × List String)
  chief : String
  fullAddresses : List String
  addressToPort : List (String × String)
  taskToAddress : List ((String × Nat) × String)
  subprocesses : List (Option Handle)
deriving DecidableEq

/-- One element of `dict(a.split(':') for a in self._full_addresses)`:
`dict` raises `ValueError` unless the split has exactly two parts. -/
def pairOfAddress (a : String) : Except PyErr (String × String) :=
  match splitColon a with
  | [x, y] => .ok (x, y)
  | _ => .error .valueError

/-- `self._full_addresses`: the topology's address lists, flattened in
iteration order. -/
def clusterFullAddresses (rs : ResourceSpec) (portCtr : Nat) : List String :=
  (((getDefaultClusterSpec rs.nodes portCtr).1).map Prod.snd).flatten

/-- `Cluster.__init__` for the given resource spec and port-counter state:
builds the topology, flattens the addresses, builds the address-to-port
dict (the fallible step), the task-to-address map, and the empty
subprocess list. -/
def clusterInit (rs : ResourceSpec) (portCtr : Nat) : Except PyErr Cluster :=
  match mapExcept pairOfAddress (clusterFullAddresses rs portCtr) with
  | .error e => .error e
  | .ok pairs =>
    .ok { clusterSpec := (getDefaultClusterSpec rs.nodes portCtr).1
          chief := rs.chief
          fullAddresses := clusterFullAddresses rs portCtr
          addressToPort := pyDict pairs
          taskToAddress := ((getDefaultClusterSpec rs.nodes portCtr).1).flatMap
            (fun jt => jt.2.enum.map
              (fun ia => ((jt.1, ia.1), (splitColon ia.2).headD "")))
          subprocesses := [] }

/-- `Cluster.get_local_address`: the `AUTODIST_WORKER` environment override
(empty counts as unset) or the chief address. -/
def Cluster.getLocalAddress (c : Cluster) (workerEnv : Option String) : String :=
  pyOr workerEnv c.chief

/-- `Cluster.is_chief`: equality of the (defaulted) address against the
chief; a missing or empty `address` argument falls back to the local
address. -/
def Cluster.isChief (c : Cluster) (workerEnv : Option String)
    (address : Option String) : Bool :=
  pyOr address (c.getLocalAddress workerEnv) == c.chief

/-- `Cluster.get_local_worker_task_index`: first index of a full address
containing the local address as a substring; `none` models the `IndexError`
raised by `[...][0]` when no entry matches. -/
def Cluster.getLocalWorkerTaskIndex (c : Cluster) (workerEnv : Option String) :
    Option Nat :=
  firstIdxFrom (fun a => containsSub (c.getLocalAddress workerEnv) a)
    c.fullAddresses

/-! ### Transport configuration registry (`SSHConfigMap`, lines 39-90) -/

/-- The raw per-group SSH info sub-dict: every key is optional (`dict.get`).
Paramiko key material is external; the loaded key is represented by its
source path. -/
structure RawSSHInfo where
  username : Option String
  port : Option Nat
  python_venv : Option String
  key_file : Option String
  shared_envs : List (String × String)
deriving DecidableEq

/-- The `SSHConfig` named tuple. -/
structure SSHConfig where
  username : String
  port : Nat
  python_venv : String
  key_file : String
  pkey : Option String
  env : List (String × String)
deriving DecidableEq

/-- `SSHConfigMap._gen_rsa_pkey`: `None` or the empty path load nothing;
otherwise the key loaded from the path (represented by the path itself). -/
def genRsaPkey (keyFilePath : Option String) : Option String :=
  match keyFilePath with
  | none => none
  | some s => if s = "" then none else some s

/-- One entry of `conf_map`: the `SSHConfig` built from a group's raw info,
with the defaults of `ssh_info.get(...)` and the baseline environment
(`TF_CPP_MIN_LOG_LEVEL`, `AUTODIST_PATCH_TF`) overlaid by `shared_envs`. -/
def mkSSHConfig (patchFlag : String) (i : RawSSHInfo) : SSHConfig :=
  { username := i.username.getD ""
    port := i.port.getD 22
    python_venv := i.python_venv.getD ""
    key_file := i.key_file.getD ""
    pkey := genRsaPkey i.key_file
    env := pyDict ([("TF_CPP_MIN_LOG_LEVEL", "0"),
                    ("AUTODIST_PATCH_TF", patchFlag)] ++ i.shared_envs) }

/-- `SSHConfigMap.__init__`: build `conf_map` from the group infos, then map
every hostname of `node_groups` to `conf_map.get(group)` — which is `None`
(the inner `none`) when the group is unknown.  The outer association list is
the dict-subclass itself: a hostname absent from `node_groups` has no entry
at all. -/
def sshConfigMap (patchFlag : String) (info : List (String × RawSSHInfo))
    (node_groups : List (String × String)) : List (String × Option SSHConfig) :=
  let conf_map := info.map (fun ki => (ki.1, mkSSHConfig patchFlag ki.2))
  node_groups.map (fun hg => (hg.1, conf_map.lookup hg.2))

/-- Dict lookup on the registry: `some v` when the hostname is a key (with
`v` the stored config-or-`None`), `none` when the hostname is absent. -/
def registryLookup (m : List (String × Option SSHConfig)) (h : String) :
    Option (Option SSHConfig) :=
  m.lookup h

/-! ### Termination (`Cluster.terminate`, lines 234-238)

The operating-system view needed by `terminate` is the pid-to-process-group
map and the set of live process groups: `os.getpgid(pid)` raises
`ProcessLookupError` for a vanished pid, and `os.killpg` raises
`ProcessLookupError` when the group no longer exists. -/

structure OSState where
  pgidOf : Nat → Option Nat
  livePgids : List Nat

/-- A recorded handle that `terminate` can signal without raising: a real
process whose pid still resolves to a live process group. -/
def handleLive (os : OSState) (p : Option Handle) : Bool :=
  match p with
  | none => false
  | some h =>
    match os.pgidOf h.pid with
    | none => false
    | some g => g ∈ os.livePgids

/-- `Cluster.terminate`, instrumented: the loop
`for p in self.subprocesses: os.killpg(os.getpgid(p.pid), signal.SIGTERM)`
has no exception handling, so the first failing handle aborts it.  Returns
the process groups actually signaled, in order, and the uncaught exception
if any: `p.pid` on a `None` handle raises `AttributeError`; a vanished pid
or dead process group raises `ProcessLookupError`. -/
def terminateRun (os : OSState) : List (Option Handle) → List Nat × Option PyErr
  | [] => ([], none)
  | none :: _ => ([], some .attributeError)
  | some h :: ps =>
    match os.pgidOf h.pid with
    | none => ([], some .processLookupError)
    | some g =>
      if g ∈ os.livePgids then
        let r := terminateRun os ps
        (g :: r.1, r.2)
      else ([], some .processLookupError)

/-! ### Launch (`Cluster.start`, lines 181-232)

`start` is embedded as a trace-producing function.  The external effects are
parameters: `isLocalAddr` is the result of `is_local_address` (interface
enumeration at call time), `outcome` says whether the fallible steps of one
node's launch succeed (`json.dump`/`Popen` locally; file pushes and
`remote_exec` remotely), `pidOf` is the pid the operating system assigns,
`workerEnv`/`debugRemote` are the `AUTODIST_WORKER` and
`AUTODIST_DEBUG_REMOTE` environment values. -/

/-- Fate of the fallible steps of one node's launch: a failure before the
spawn, a failure of the spawn itself, or success. -/
inductive LaunchOutcome
  | preFail
  | spawnFail
  | ok
deriving DecidableEq

structure StartCfg where
  workerEnv : Option String
  debugRemote : Bool
  isLocalAddr : String → Bool
  outcome : String → LaunchOutcome
  pidOf : String → Nat

/-- `self.get_local_address()` during `start`. -/
def localAddressOf (chief : String) (cfg : StartCfg) : String :=
  pyOr cfg.workerEnv chief

/-- `self.is_chief(address)` with an explicit address argument. -/
def isChiefAddr (chief : String) (cfg : StartCfg) (address : String) : Bool :=
  pyOr (some address) (localAddressOf chief cfg) == chief

/-- `self.is_chief()` with no argument. -/
def chiefLocal (chief : String) (cfg : StartCfg) : Bool :=
  localAddressOf chief cfg == chief

/-- Events of one `start()` call, in program order: the `atexit`
registration of `terminate`, the stale-process kill command issued for a
host (locally when the host is the chief), the blocking wait on that
command, and the beginning of one node's launch. -/
inductive Event
  | registerHook
  | killCmd (host : String) (onChief : Bool)
  | waitKill (host : String)
  | launchAttempt (addr : String)
deriving DecidableEq

/-- The handle recorded for one successfully launched node: a local spawn
for a local or chief address, otherwise `remote_exec`'s result — which is
`None` when `AUTODIST_DEBUG_REMOTE` is set. -/
def launchHandle (chief : String) (cfg : StartCfg) (full : String) :
    Option Handle :=
  let address := (splitColon full).headD ""
  if cfg.isLocalAddr address || isChiefAddr chief cfg address then
    some ⟨cfg.pidOf full⟩
  else if cfg.debugRemote then none
  else some ⟨cfg.pidOf full⟩

/-- The launch loop of `start` over the flattened full addresses: each
iteration appends its handle immediately after the spawn; a failure raises
out of the loop, leaving the handles recorded so far. -/
def launchLoop (chief : String) (cfg : StartCfg) :
    List String → List Event × (List (Option Handle) × Option PyErr)
  | [] => ([], ([], none))
  | a :: rest =>
    match cfg.outcome a with
    | .preFail => ([.launchAttempt a], ([], some .launchFailure))
    | .spawnFail => ([.launchAttempt a], ([], some .launchFailure))
    | .ok =>
      let r := launchLoop chief cfg rest
      (.launchAttempt a :: r.1, (launchHandle chief cfg a :: r.2.1, r.2.2))

/-- `Cluster._clean_autodist_processes`: issue a kill command for every key
of the address-to-port dict, then wait on all of them. -/
def cleanEvents (chief : String) (cfg : StartCfg) (hosts : List String) :
    List Event :=
  hosts.map (fun h => Event.killCmd h (isChiefAddr chief cfg h)) ++
    hosts.map Event.waitKill

/-- `Cluster.start`: register the exit hook, run the chief's stale-process
sweep, then launch every node.  Returns the event trace, the recorded
handles, and the uncaught launch exception if any. -/
def startRun (chief : String) (cfg : StartCfg) (hosts addrs : List String) :
    List Event × (List (Option Handle) × Option PyErr) :=
  let r := launchLoop chief cfg addrs
  (Event.registerHook ::
      ((if chiefLocal chief cfg then cleanEvents chief cfg hosts else []) ++ r.1),
    r.2)

/-- The event trace of one `start()` call. -/
def startTrace (chief : String) (cfg : StartCfg) (hosts addrs : List String) :
    List Event :=
  (startRun chief cfg hosts addrs).1

/-- The subprocess list after one `start()` call. -/
def startHandles (chief : String) (cfg : StartCfg) (hosts addrs : List String) :
    List (Option Handle) :=
  (startRun chief cfg hosts addrs).2.1

/-- The uncaught exception of one `start()` call, if any. -/
def startErr (chief : String) (cfg : StartCfg) (hosts addrs : List String) :
    Option PyErr :=
  (startRun chief cfg hosts addrs).2.2

/-! ### Order properties of `pySorted` -/

instance pyLe.isTotal : IsTotal String pyLe :=
  ⟨fun a b => le_total a.data b.data⟩

instance pyLe.isTrans : IsTrans String pyLe :=
  ⟨fun _ _ _ hab hbc => le_trans hab hbc⟩

theorem String.data_injective {a b : String} (h : a.data = b.data) : a = b :=
  congrArg String.mk h

instance pyLe.isAntisymm : IsAntisymm String pyLe :=
  ⟨fun _ _ h1 h2 => String.data_injective (le_antisymm h1 h2)⟩

theorem pySorted_perm (l : List String) : (pySorted l).Perm l :=
  List.perm_insertionSort pyLe l

theorem pySorted_eq_of_perm {l1 l2 : List String} (h : l1.Perm l2) :
    pySorted l1 = pySorted l2 :=
  List.eq_of_perm_of_sorted
    (((pySorted_perm l1).trans h).trans (pySorted_perm l2).symm)
    (List.sorted_insertionSort pyLe l1) (List.sorted_insertionSort pyLe l2)

theorem length_pySorted (l : List String) : (pySorted l).length = l.length :=
  (pySorted_perm l).length_eq

/-! ### Claim theorems -/

/-- C1 (corrected).  Topology building is a pure function of the node set
and of the port-counter state: builds from any two permutations of the same
identities with the same counter agree byte for byte (so two freshly started
processes, whose module-level counters both start at the fixed starting
port, derive identical mappings).  But the counter is module-level shared
state, advanced by one draw per node: the build returns the counter advanced
by the number of nodes, so a second build in the same process reads
different ports than the first. -/
theorem topology_build_pure_in_set_and_counter
    (nodes1 nodes2 : List String) (portCtr : Nat) (hperm : nodes1.Perm nodes2) :
    getDefaultClusterSpec nodes1 portCtr = getDefaultClusterSpec nodes2 portCtr ∧
    (getDefaultClusterSpec nodes1 portCtr).2 = portCtr + nodes1.length := by
  constructor
  · unfold getDefaultClusterSpec
    rw [pySorted_eq_of_perm hperm]
  · unfold getDefaultClusterSpec
    simp [length_pySorted]

/-- Witness for C1: two orderings of the same two identities, counter 2222. -/
theorem topology_build_pure_in_set_and_counter_witness :
    getDefaultClusterSpec ["10.0.0.2", "10.0.0.1"] 2222 =
      getDefaultClusterSpec ["10.0.0.1", "10.0.0.2"] 2222 ∧
    (getDefaultClusterSpec ["10.0.0.2", "10.0.0.1"] 2222).2 =
      2222 + ["10.0.0.2", "10.0.0.1"].length :=
  topology_build_pure_in_set_and_counter _ _ 2222 (by decide)

/-- Counterexample to C1 as stated: the port source is NOT a per-call
counter.  `next(DEFAULT_PORT_RANGE)` advances the module-level iterator, so
the second build in the same process (starting from the counter state the
first build left behind) assigns different ports to the same single node. -/
theorem topology_second_build_differs :
    (getDefaultClusterSpec ["10.0.0.1"]
        ((getDefaultClusterSpec ["10.0.0.1"] 2222).2)).1 ≠
      (getDefaultClusterSpec ["10.0.0.1"] 2222).1 := by
  decide

/-- C6 (confirmed).  Nodes `{"10.0.0.2", "10.0.0.1"}`, chief `"10.0.0.1"`,
starting port 2222: the worker list is
`["10.0.0.1:2222", "10.0.0.2:2223"]` (identities sorted, ports in sorted
order), and on the resulting cluster `is_chief` answers `true` for the chief
and `false` for the other node. -/
theorem scenario_topology_and_chief :
    (clusterInit ⟨["10.0.0.2", "10.0.0.1"], "10.0.0.1"⟩ 2222).map
        Cluster.clusterSpec =
      .ok [("worker", ["10.0.0.1:2222", "10.0.0.2:2223"])] ∧
    (clusterInit ⟨["10.0.0.2", "10.0.0.1"], "10.0.0.1"⟩ 2222).map
        (fun c => c.isChief none (some "10.0.0.1")) = .ok true ∧
    (clusterInit ⟨["10.0.0.2", "10.0.0.1"], "10.0.0.1"⟩ 2222).map
        (fun c => c.isChief none (some "10.0.0.2")) = .ok false := by
  decide

/-- C8 (confirmed).  Loopback classification: `127.0.0.1` is loopback,
`10.0.0.5` is not, and the bracketed IPv6 form `[::1]:2222` is parsed to
`::1` and classified as loopback. -/
theorem loopback_classification :
    isLoopbackAddress "127.0.0.1" = some true ∧
    isLoopbackAddress "10.0.0.5" = some false ∧
    isLoopbackAddress "[::1]:2222" = some true := by
  decide

/-! ### C3: the transport-configuration registry -/

theorem lookup_map_snd {β γ : Type} (f : β → γ) (l : List (String × β))
    (k : String) :
    (l.map (fun p => (p.1, f p.2))).lookup k = (l.lookup k).map f := by
  induction l with
  | nil => simp
  | cons x xs ih =>
    by_cases hk : k = x.1
    · have hb : (k == x.1) = true := by simpa using hk
      simp [List.lookup, hb]
    · have hb : (k == x.1) = false := by simpa using hk
      simp [List.lookup, hb, ih]

theorem sshConfigMap_lookup (patchFlag : String)
    (info : List (String × RawSSHInfo)) (node_groups : List (String × String))
    (h : String) :
    registryLookup (sshConfigMap patchFlag info node_groups) h =
      (node_groups.lookup h).map
        (fun g => (info.lookup g).map (mkSSHConfig patchFlag)) := by
  unfold registryLookup sshConfigMap
  rw [lookup_map_snd
    (fun g => List.lookup g (info.map (fun ki => (ki.1, mkSSHConfig patchFlag ki.2))))
    node_groups h]
  cases List.lookup h node_groups with
  | none => simp
  | some g => simp [lookup_map_snd]

/-- The group config of the C3 scenario: `{"A": {username: "u", port: 2222}}`. -/
def rawInfoA : RawSSHInfo :=
  { username := some "u"
    port := some 2222
    python_venv := none
    key_file := none
    shared_envs := [] }

/-- Counterexample to C3 as stated: a host whose mapped group is unknown
does NOT resolve to an absent entry.  `self[hostname] = conf_map.get(group)`
stores the hostname as a key with value `None`, so the registry built from
groups `{"A": ...}` and host map `{"h1": "B"}` has a stored placeholder
entry for `"h1"` (membership reports the host present). -/
theorem unknown_group_stores_placeholder :
    registryLookup (sshConfigMap "1" [("A", rawInfoA)] [("h1", "B")]) "h1" ≠
      none := by
  decide

/-- C3 (corrected, amended).  Scenario: groups
`{"A": {username: "u", port: 2222}}`, host map `{"h1": "A"}` — the registry
entry for `"h1"` has port 2222 and username `"u"`, and `"h2"` (absent from
the host map) has no entry.  For a host whose mapped group is not among the
group configs, the registry stores an entry whose value is the `None`
placeholder (rather than storing no entry): membership reports the host
present, and the failure is deferred to first attribute access on the
placeholder. -/
theorem registry_resolution
    (patchFlag : String) (info : List (String × RawSSHInfo))
    (node_groups : List (String × String)) (h g : String)
    (hhost : node_groups.lookup h = some g)
    (hgroup : info.lookup g = none) :
    (registryLookup (sshConfigMap "1" [("A", rawInfoA)] [("h1", "A")]) "h1" =
        some (some (mkSSHConfig "1" rawInfoA)) ∧
      (mkSSHConfig "1" rawInfoA).port = 2222 ∧
      (mkSSHConfig "1" rawInfoA).username = "u" ∧
      registryLookup (sshConfigMap "1" [("A", rawInfoA)] [("h1", "A")]) "h2" =
        none) ∧
    registryLookup (sshConfigMap patchFlag info node_groups) h = some none := by
  refine ⟨by decide, ?_⟩
  rw [sshConfigMap_lookup, hhost]
  simp [hgroup]

/-- Witness for C3: host `h1` mapped to the unknown group `B`. -/
theorem registry_resolution_witness :
    registryLookup (sshConfigMap "1" [("A", rawInfoA)] [("h1", "B")]) "h1" =
      some none :=
  (registry_resolution "1" [("A", rawInfoA)] [("h1", "B")] "h1" "B"
    (by decide) (by decide)).2

/-! ### C2, C10: termination behaviour -/

theorem terminateRun_all_live (os : OSState) (ps : List (Option Handle))
    (h : ∀ q ∈ ps, handleLive os q = true) :
    (terminateRun os ps).1.length = ps.length ∧ (terminateRun os ps).2 = none := by
  induction ps with
  | nil => simp [terminateRun]
  | cons p ps ih =>
    have hp := h p (by simp)
    match p with
    | none => simp [handleLive] at hp
    | some hd =>
      simp only [handleLive] at hp
      cases hg : os.pgidOf hd.pid with
      | none => rw [hg] at hp; exact absurd hp (by simp)
      | some g =>
        rw [hg] at hp
        have hmem : g ∈ os.livePgids := by simpa using hp
        have := ih (fun q hq => h q (by simp [hq]))
        simp [terminateRun, hg, hmem, this.1, this.2]

theorem terminateRun_abort (os : OSState) (l1 l2 : List (Option Handle))
    (p : Option Handle) (h1 : ∀ q ∈ l1, handleLive os q = true)
    (hp : handleLive os p = false) :
    (terminateRun os (l1 ++ p :: l2)).1.length = l1.length ∧
      (terminateRun os (l1 ++ p :: l2)).2.isSome = true := by
  induction l1 with
  | nil =>
    match p with
    | none => simp [terminateRun]
    | some hd =>
      simp only [handleLive] at hp
      cases hg : os.pgidOf hd.pid with
      | none => simp [terminateRun, hg]
      | some g =>
        rw [hg] at hp
        have hnm : g ∉ os.livePgids := by simpa using hp
        simp [terminateRun, hg, hnm]
  | cons q l1 ih =>
    have hq := h1 q (by simp)
    match q with
    | none => simp [handleLive] at hq
    | some hd =>
      simp only [handleLive] at hq
      cases hg : os.pgidOf hd.pid with
      | none => rw [hg] at hq; exact absurd hq (by simp)
      | some g =>
        rw [hg] at hq
        have hmem : g ∈ os.livePgids := by simpa using hq
        have := ih (fun r hr => h1 r (by simp [hr]))
        simp [terminateRun, hg, hmem, this.1, this.2]

theorem terminateRun_err_of_none_mem (os : OSState) (ps : List (Option Handle))
    (h : none ∈ ps) : (terminateRun os ps).2.isSome = true := by
  induction ps with
  | nil => simp at h
  | cons p ps ih =>
    match p with
    | none => simp [terminateRun]
    | some hd =>
      have hmem : none ∈ ps := by
        rcases List.mem_cons.1 h with hc | hm
        · exact absurd hc (by simp)
        · exact hm
      cases hg : os.pgidOf hd.pid with
      | none => simp [terminateRun, hg]
      | some g =>
        by_cases hl : g ∈ os.livePgids
        · simp [terminateRun, hg, hl, ih hmem]
        · simp [terminateRun, hg, hl]

theorem terminateRun_attr_of_none_mem (os : OSState) (ps : List (Option Handle))
    (h : none ∈ ps) (hlive : ∀ q ∈ ps, q = none ∨ handleLive os q = true) :
    (terminateRun os ps).2 = some .attributeError := by
  induction ps with
  | nil => simp at h
  | cons p ps ih =>
    match p with
    | none => simp [terminateRun]
    | some hd =>
      have hmem : none ∈ ps := by
        rcases List.mem_cons.1 h with hc | hm
        · exact absurd hc (by simp)
        · exact hm
      have hq := hlive (some hd) (by simp)
      rcases hq with hq | hq
      · exact absurd hq (by simp)
      simp only [handleLive] at hq
      cases hg : os.pgidOf hd.pid with
      | none => rw [hg] at hq; exact absurd hq (by simp)
      | some g =>
        rw [hg] at hq
        have hmemg : g ∈ os.livePgids := by simpa using hq
        simp [terminateRun, hg, hmemg,
          ih hmem (fun r hr => hlive r (by simp [hr]))]

/-- Counterexample to C2 as stated: `terminate` has no exception handling.
With two recorded handles whose processes have exited after a first
`terminate` call — pid 1 in the now-dead group 1, pid 2 in the still-live
group 2 — `os.killpg` on the dead group raises `ProcessLookupError`,
aborting the loop: the second (signalable) handle is never signaled, and a
second invocation raises instead of completing. -/
theorem terminate_raises_on_dead_group :
    terminateRun
        ⟨fun p => if p = 1 then some 1 else if p = 2 then some 2 else none, [2]⟩
        [some ⟨1⟩, some ⟨2⟩] =
      ([], some .processLookupError) := by
  decide

/-- C2 (corrected, amended).  `terminate` signals each recorded handle's
process group in order with no exception handling: when every handle's
process still resolves to a live process group, every handle is signaled
and nothing is raised; but the first handle whose process group has already
exited makes the signaling raise, so the sweep stops there and the
remaining handles are not signaled. -/
theorem terminate_signals_until_first_failure (os : OSState)
    (ps l1 l2 : List (Option Handle)) (p : Option Handle) :
    ((∀ q ∈ ps, handleLive os q = true) →
      (terminateRun os ps).1.length = ps.length ∧ (terminateRun os ps).2 = none) ∧
    ((∀ q ∈ l1, handleLive os q = true) → handleLive os p = false →
      (terminateRun os (l1 ++ p :: l2)).1.length = l1.length ∧
        (terminateRun os (l1 ++ p :: l2)).2.isSome = true) :=
  ⟨terminateRun_all_live os ps, terminateRun_abort os l1 l2 p⟩

/-- Witness for C2: one live handle signaled cleanly, and a dead handle
after a live one aborting the sweep. -/
theorem terminate_signals_until_first_failure_witness :
    ((terminateRun ⟨fun _ => some 7, [7]⟩ [some ⟨3⟩]).1.length = 1 ∧
      (terminateRun ⟨fun _ => some 7, [7]⟩ [some ⟨3⟩]).2 = none) ∧
    ((terminateRun ⟨fun p => if p = 3 then some 7 else none, [7]⟩
          [some ⟨3⟩, some ⟨4⟩, some ⟨5⟩]).1.length = 1 ∧
      (terminateRun ⟨fun p => if p = 3 then some 7 else none, [7]⟩
          [some ⟨3⟩, some ⟨4⟩, some ⟨5⟩]).2.isSome = true) :=
  ⟨(terminate_signals_until_first_failure ⟨fun _ => some 7, [7]⟩ [some ⟨3⟩]
      [] [] none).1 (by decide),
   (terminate_signals_until_first_failure
      ⟨fun p => if p = 3 then some 7 else none, [7]⟩ [] [some ⟨3⟩]
      [some ⟨5⟩] (some ⟨4⟩)).2 (by decide) (by decide)⟩

/-! ### C4, C5: launch-loop structure -/

theorem launchLoop_handles (chief : String) (cfg : StartCfg)
    (addrs : List String) :
    (launchLoop chief cfg addrs).2.1 =
      (addrs.takeWhile (fun a => cfg.outcome a == .ok)).map
        (launchHandle chief cfg) := by
  induction addrs with
  | nil => simp [launchLoop]
  | cons a rest ih =>
    cases ho : cfg.outcome a with
    | preFail => simp [launchLoop, ho, List.takeWhile_cons]
    | spawnFail => simp [launchLoop, ho, List.takeWhile_cons]
    | ok => simp [launchLoop, ho, List.takeWhile_cons, ih]

theorem launchLoop_err_none_iff (chief : String) (cfg : StartCfg)
    (addrs : List String) :
    (launchLoop chief cfg addrs).2.2 = none ↔
      ∀ a ∈ addrs, cfg.outcome a = .ok := by
  induction addrs with
  | nil => simp [launchLoop]
  | cons a rest ih =>
    cases ho : cfg.outcome a with
    | preFail => simp [launchLoop, ho]
    | spawnFail => simp [launchLoop, ho]
    | ok =>
      simp only [launchLoop, ho, ih, List.mem_cons]
      constructor
      · intro h b hb
        rcases hb with rfl | hb
        · exact ho
        · exact h b hb
      · intro h b hb
        exact h b (Or.inr hb)

theorem startHandles_eq_launchLoop (chief : String) (cfg : StartCfg)
    (hosts addrs : List String) :
    startHandles chief cfg hosts addrs = (launchLoop chief cfg addrs).2.1 :=
  rfl

theorem startErr_eq_launchLoop (chief : String) (cfg : StartCfg)
    (hosts addrs : List String) :
    startErr chief cfg hosts addrs = (launchLoop chief cfg addrs).2.2 :=
  rfl

theorem takeWhile_eq_take_of_firstIdx {α : Type} (p : α → Bool) (l : List α)
    (k : Nat) (h : firstIdxFrom (fun a => !(p a)) l = some k) :
    l.takeWhile p = l.take k := by
  induction l generalizing k with
  | nil => simp [firstIdxFrom] at h
  | cons a rest ih =>
    by_cases hp : p a
    · have hb : (!(p a)) = false := by simp [hp]
      simp only [firstIdxFrom, hb, Bool.false_eq_true, if_false,
        Option.map_eq_some'] at h
      obtain ⟨k', hk', rfl⟩ := h
      simp [List.takeWhile_cons, hp, ih k' hk', List.take_succ_cons]
    · have hb : (!(p a)) = true := by simp [hp]
      simp only [firstIdxFrom, hb, if_true, Option.some.injEq] at h
      subst h
      simp [List.takeWhile_cons, hp]

/-- C4 (confirmed).  Handle-recording invariant of `start()`: every launched
node's handle is appended immediately after the spawn, so the subprocess
list is exactly the handles of the maximal prefix of nodes whose launch
steps all succeeded; the launch raises iff some node's launch fails; and
when the first failure is at node `k`, the list holds exactly the handles
of nodes `0..k-1` — no untracked live process and no phantom handle for the
failed node. -/
theorem start_records_exactly_launched_handles (chief : String)
    (cfg : StartCfg) (hosts addrs : List String) :
    startHandles chief cfg hosts addrs =
      (addrs.takeWhile (fun a => cfg.outcome a == .ok)).map
        (launchHandle chief cfg) ∧
    (startErr chief cfg hosts addrs = none ↔ ∀ a ∈ addrs, cfg.outcome a = .ok) ∧
    (∀ k, firstIdxFrom (fun a => !(cfg.outcome a == .ok)) addrs = some k →
      startHandles chief cfg hosts addrs =
          (addrs.take k).map (launchHandle chief cfg) ∧
        (startErr chief cfg hosts addrs).isSome = true) := by
  rw [startHandles_eq_launchLoop, startErr_eq_launchLoop]
  refine ⟨launchLoop_handles chief cfg addrs,
    launchLoop_err_none_iff chief cfg addrs, ?_⟩
  intro k hk
  constructor
  · rw [launchLoop_handles chief cfg addrs,
      takeWhile_eq_take_of_firstIdx _ _ k hk]
  · obtain ⟨hlt, hp, -⟩ :=
      firstIdxFrom_eq_some (fun a => !(cfg.outcome a == .ok)) addrs "" k hk
    rw [List.getD_eq_getElem addrs "" hlt] at hp
    have hmem : addrs[k] ∈ addrs := List.getElem_mem hlt
    have hne : ¬ (∀ a ∈ addrs, cfg.outcome a = .ok) := by
      intro hall
      have h2 := hall _ hmem
      rw [h2] at hp
      simp at hp
    have hnn : ¬ (launchLoop chief cfg addrs).2.2 = none := by
      rw [launchLoop_err_none_iff chief cfg addrs]
      exact hne
    exact Option.isSome_iff_ne_none.2 hnn

/-- Witness for C4: three nodes, the second one's launch fails — exactly the
first node's handle is recorded, and the error propagates. -/
theorem start_records_exactly_launched_handles_witness :
    startHandles "10.0.0.1"
        ⟨none, false, fun _ => false,
          fun a => if a = "10.0.0.2:2223" then .preFail else .ok,
          fun _ => 5⟩
        [] ["10.0.0.1:2222", "10.0.0.2:2223", "10.0.0.3:2224"] =
      (["10.0.0.1:2222", "10.0.0.2:2223", "10.0.0.3:2224"].take 1).map
        (launchHandle "10.0.0.1"
          ⟨none, false, fun _ => false,
            fun a => if a = "10.0.0.2:2223" then .preFail else .ok,
            fun _ => 5⟩) ∧
    (startErr "10.0.0.1"
        ⟨none, false, fun _ => false,
          fun a => if a = "10.0.0.2:2223" then .preFail else .ok,
          fun _ => 5⟩
        [] ["10.0.0.1:2222", "10.0.0.2:2223", "10.0.0.3:2224"]).isSome = true :=
  (start_records_exactly_launched_handles "10.0.0.1"
    ⟨none, false, fun _ => false,
      fun a => if a = "10.0.0.2:2223" then .preFail else .ok,
      fun _ => 5⟩
    [] ["10.0.0.1:2222", "10.0.0.2:2223", "10.0.0.3:2224"]).2.2 1 (by decide)

theorem launchLoop_events_are_launches (chief : String) (cfg : StartCfg)
    (addrs : List String) :
    ∀ e ∈ (launchLoop chief cfg addrs).1, ∃ a, e = Event.launchAttempt a := by
  induction addrs with
  | nil => simp [launchLoop]
  | cons a rest ih =>
    cases ho : cfg.outcome a with
    | preFail => simp [launchLoop, ho]
    | spawnFail => simp [launchLoop, ho]
    | ok =>
      intro e he
      simp only [launchLoop, ho, List.mem_cons] at he
      rcases he with rfl | he
      · exact ⟨a, rfl⟩
      · exact ih e he

theorem no_cross_append_index {l1 l2 : List Event} {P Q : Event → Prop}
    (h1 : ∀ e ∈ l1, ¬ P e) (h2 : ∀ e ∈ l2, ¬ Q e) :
    ∀ (i j : Nat) (e1 e2 : Event), (l1 ++ l2)[i]? = some e1 → Q e1 →
      (l1 ++ l2)[j]? = some e2 → P e2 → i < j := by
  intro i j e1 e2 hi hq hj hp
  have hiL : i < l1.length := by
    by_contra hcon
    rw [List.getElem?_append_right (Nat.le_of_not_lt hcon)] at hi
    obtain ⟨hb, heq⟩ := List.getElem?_eq_some_iff.1 hi
    exact h2 e1 (heq ▸ List.getElem_mem hb) hq
  have hjL : l1.length ≤ j := by
    by_contra hcon
    rw [List.getElem?_append, if_pos (Nat.lt_of_not_le hcon)] at hj
    obtain ⟨hb, heq⟩ := List.getElem?_eq_some_iff.1 hj
    exact h1 e2 (heq ▸ List.getElem_mem hb) hp
  omega

/-- C5 (confirmed).  Ordering of `start()`: the termination hook is
registered first (before any launch attempt); when the calling process is
the chief, a stale-process kill command is issued for every known host, and
every one of those commands is waited on before the first launch attempt —
formally, every `waitKill` event precedes every `launchAttempt` event in
the trace. -/
theorem start_hook_and_sweep_precede_launches (chief : String)
    (cfg : StartCfg) (hosts addrs : List String)
    (hchief : chiefLocal chief cfg = true) :
    (startTrace chief cfg hosts addrs).head? = some .registerHook ∧
    (∀ h ∈ hosts,
      Event.killCmd h (isChiefAddr chief cfg h) ∈ startTrace chief cfg hosts addrs ∧
      Event.waitKill h ∈ startTrace chief cfg hosts addrs) ∧
    (∀ (i j : Nat) (h a : String),
      (startTrace chief cfg hosts addrs)[i]? = some (Event.waitKill h) →
      (startTrace chief cfg hosts addrs)[j]? = some (Event.launchAttempt a) →
      i < j) ∧
    (∀ (j : Nat) (a : String),
      (startTrace chief cfg hosts addrs)[j]? = some (Event.launchAttempt a) →
      0 < j) := by
  have htr : startTrace chief cfg hosts addrs =
      (Event.registerHook :: cleanEvents chief cfg hosts) ++
        (launchLoop chief cfg addrs).1 := by
    unfold startTrace startRun
    rw [if_pos hchief]
    rfl
  have hpre : ∀ e ∈ Event.registerHook :: cleanEvents chief cfg hosts,
      ¬ ∃ a, e = Event.launchAttempt a := by
    intro e he
    rcases List.mem_cons.1 he with rfl | he
    · rintro ⟨a, ha⟩; exact absurd ha (by simp)
    · unfold cleanEvents at he
      rcases List.mem_append.1 he with he | he
      · obtain ⟨h0, -, rfl⟩ := List.mem_map.1 he
        rintro ⟨a, ha⟩; exact absurd ha (by simp)
      · obtain ⟨h0, -, rfl⟩ := List.mem_map.1 he
        rintro ⟨a, ha⟩; exact absurd ha (by simp)
  have hpost : ∀ e ∈ (launchLoop chief cfg addrs).1,
      ¬ ∃ h0, e = Event.waitKill h0 := by
    intro e he
    obtain ⟨a, rfl⟩ := launchLoop_events_are_launches chief cfg addrs e he
    rintro ⟨h0, hh⟩; exact absurd hh (by simp)
  refine ⟨?_, ?_, ?_, ?_⟩
  · rw [htr]; rfl
  · intro h hh
    rw [htr]
    constructor
    · refine List.mem_append_left _ (List.mem_cons_of_mem _ ?_)
      exact List.mem_append_left _ (List.mem_map.2 ⟨h, hh, rfl⟩)
    · refine List.mem_append_left _ (List.mem_cons_of_mem _ ?_)
      exact List.mem_append_right _ (List.mem_map.2 ⟨h, hh, rfl⟩)
  · intro i j h a hi hj
    rw [htr] at hi hj
    exact no_cross_append_index hpre hpost i j _ _ hi ⟨h, rfl⟩ hj ⟨a, rfl⟩
  · intro j a hj
    rcases Nat.eq_zero_or_pos j with rfl | hpos
    · rw [htr] at hj
      simp at hj
    · exact hpos

/-- Witness for C5: a chief-local configuration with one remote host and one
node to launch. -/
theorem start_hook_and_sweep_precede_launches_witness :
    (startTrace "10.0.0.1"
        ⟨none, false, fun _ => false, fun _ => .ok, fun _ => 5⟩
        ["10.0.0.1", "10.0.0.2"] ["10.0.0.1:2222"]).head? =
      some .registerHook ∧
    Event.waitKill "10.0.0.2" ∈
      startTrace "10.0.0.1"
        ⟨none, false, fun _ => false, fun _ => .ok, fun _ => 5⟩
        ["10.0.0.1", "10.0.0.2"] ["10.0.0.1:2222"] :=
  ⟨(start_hook_and_sweep_precede_launches "10.0.0.1"
      ⟨none, false, fun _ => false, fun _ => .ok, fun _ => 5⟩
      ["10.0.0.1", "10.0.0.2"] ["10.0.0.1:2222"] (by decide)).1,
   ((start_hook_and_sweep_precede_launches "10.0.0.1"
      ⟨none, false, fun _ => false, fun _ => .ok, fun _ => 5⟩
      ["10.0.0.1", "10.0.0.2"] ["10.0.0.1:2222"] (by decide)).2.1
      "10.0.0.2" (by decide)).2⟩

/-! ### C7: local task index -/

theorem containsSub_false_iff (sub s : String) :
    containsSub sub s = false ↔ ¬ SubstrOf sub.data s.data := by
  rw [← containsSub_iff]
  cases containsSub sub s <;> simp

/-- C7 (confirmed).  `local_task_index()` returns the first index in the
flattened address list whose entry contains the local address as a
substring (hence it tolerates the `address:port` form), and when no entry
contains the local address the comprehension is empty and the lookup fails
(`[... ][0]` raises, the spec's NoLocalTaskFound), modelled as `none`. -/
theorem local_task_index_first_substring_match (c : Cluster)
    (workerEnv : Option String) :
    (c.getLocalWorkerTaskIndex workerEnv = none ↔
      ∀ a ∈ c.fullAddresses,
        ¬ SubstrOf (c.getLocalAddress workerEnv).data a.data) ∧
    (∀ i, c.getLocalWorkerTaskIndex workerEnv = some i →
      i < c.fullAddresses.length ∧
      SubstrOf (c.getLocalAddress workerEnv).data
        ((c.fullAddresses.getD i "").data) ∧
      ∀ j, j < i →
        ¬ SubstrOf (c.getLocalAddress workerEnv).data
          ((c.fullAddresses.getD j "").data)) := by
  constructor
  · rw [Cluster.getLocalWorkerTaskIndex, firstIdxFrom_eq_none_iff]
    constructor
    · intro h a ha
      exact (containsSub_false_iff _ _).1 (h a ha)
    · intro h a ha
      exact (containsSub_false_iff _ _).2 (h a ha)
  · intro i hi
    rw [Cluster.getLocalWorkerTaskIndex] at hi
    obtain ⟨hlt, hp, hj⟩ := firstIdxFrom_eq_some _ _ "" i hi
    exact ⟨hlt, (containsSub_iff _ _).1 hp,
      fun j hji => (containsSub_false_iff _ _).1 (hj j hji)⟩

/-- A one-worker cluster used to witness C7. -/
def sampleCluster : Cluster :=
  { clusterSpec := [("worker", ["10.0.0.1:2222"])]
    chief := "10.0.0.1"
    fullAddresses := ["10.0.0.1:2222"]
    addressToPort := [("10.0.0.1", "2222")]
    taskToAddress := [(("worker", 0), "10.0.0.1")]
    subprocesses := [] }

/-- Witness for C7: the chief finds itself at index 0 of its one-entry
address list, by substring match against the `address:port` form. -/
theorem local_task_index_first_substring_match_witness :
    0 < sampleCluster.fullAddresses.length ∧
    SubstrOf (sampleCluster.getLocalAddress none).data
      ((sampleCluster.fullAddresses.getD 0 "").data) ∧
    (∀ j, j < 0 →
      ¬ SubstrOf (sampleCluster.getLocalAddress none).data
        ((sampleCluster.fullAddresses.getD j "").data)) :=
  (local_task_index_first_substring_match sampleCluster none).2 0 (by decide)

/-! ### C9: construction-time address validation -/

theorem pairOfAddress_eq_error_of_len (a : String)
    (h : (splitColon a).length ≠ 2) :
    pairOfAddress a = .error .valueError := by
  unfold pairOfAddress
  cases hs : splitColon a with
  | nil => rfl
  | cons x t1 =>
    cases t1 with
    | nil => rfl
    | cons y t2 =>
      cases t2 with
      | nil => exact absurd (by rw [hs]; rfl) h
      | cons z t3 => rfl

theorem pairOfAddress_error_eq (a : String) (e : PyErr)
    (h : pairOfAddress a = .error e) : e = .valueError := by
  unfold pairOfAddress at h
  cases hs : splitColon a with
  | nil => rw [hs] at h; simpa using h.symm
  | cons x t1 =>
    cases t1 with
    | nil => rw [hs] at h; simpa using h.symm
    | cons y t2 =>
      cases t2 with
      | nil => rw [hs] at h; exact absurd h (by simp)
      | cons z t3 => rw [hs] at h; simpa using h.symm

theorem pairOfAddress_ok_len (a : String) (p : String × String)
    (h : pairOfAddress a = .ok p) : (splitColon a).length = 2 := by
  unfold pairOfAddress at h
  cases hs : splitColon a with
  | nil => rw [hs] at h; exact absurd h (by simp)
  | cons x t1 =>
    cases t1 with
    | nil => rw [hs] at h; exact absurd h (by simp)
    | cons y t2 =>
      cases t2 with
      | nil => rfl
      | cons z t3 => rw [hs] at h; exact absurd h (by simp)

theorem clusterFullAddresses_eq (rs : ResourceSpec) (portCtr : Nat) :
    clusterFullAddresses rs portCtr =
      (pySorted rs.nodes).enum.map
        (fun p => p.2 ++ ":" ++ toString (portCtr + p.1)) := by
  simp [clusterFullAddresses, getDefaultClusterSpec]

theorem data_append_colon (n t : String) :
    (n ++ ":" ++ t).data = n.data ++ (':' :: t.data) := by
  rw [String.data_append, String.data_append, List.append_assoc]
  rfl

/-- C9 (confirmed, implicit).  `Cluster.__init__` builds
`dict(a.split(':') for a in self._full_addresses)`, which raises
`ValueError` unless every full address splits into exactly two parts:
construction succeeds only when every `address:port` string contains
exactly one colon, and any node identity containing a colon (a bare or
bracket-quoted IPv6 literal) makes construction fail with `ValueError` —
before any process is launched (the subprocess list of a successfully
constructed cluster is empty). -/
theorem cluster_construction_requires_single_colon (rs : ResourceSpec)
    (portCtr : Nat) :
    ((∃ n ∈ rs.nodes, ':' ∈ n.data) →
      clusterInit rs portCtr = .error .valueError) ∧
    (∀ c, clusterInit rs portCtr = .ok c →
      (∀ a ∈ c.fullAddresses, a.data.count ':' = 1) ∧ c.subprocesses = []) := by
  constructor
  · rintro ⟨n, hn, hcolon⟩
    have hnsorted : n ∈ pySorted rs.nodes := (pySorted_perm rs.nodes).mem_iff.2 hn
    have hnmap : n ∈ (pySorted rs.nodes).enum.map Prod.snd := by
      rw [List.enum_map_snd]
      exact hnsorted
    obtain ⟨p, hp, hpn⟩ := List.mem_map.1 hnmap
    have hfull : p.2 ++ ":" ++ toString (portCtr + p.1) ∈
        clusterFullAddresses rs portCtr := by
      rw [clusterFullAddresses_eq]
      exact List.mem_map.2 ⟨p, hp, rfl⟩
    have hcount : 2 ≤ (p.2 ++ ":" ++ toString (portCtr + p.1)).data.count ':' := by
      rw [data_append_colon]
      rw [List.count_append, List.count_cons_self]
      have hpos : 0 < p.2.data.count ':' :=
        List.count_pos_iff.2 (hpn ▸ hcolon)
      omega
    have hlen : (splitColon (p.2 ++ ":" ++ toString (portCtr + p.1))).length ≠ 2 := by
      rw [length_splitColon]
      omega
    have herr := pairOfAddress_eq_error_of_len _ hlen
    have hmap := mapExcept_error_of_mem pairOfAddress .valueError
      pairOfAddress_error_eq (clusterFullAddresses rs portCtr) _ hfull _ herr
    unfold clusterInit
    rw [hmap]
  · intro c hc
    unfold clusterInit at hc
    cases hm : mapExcept pairOfAddress (clusterFullAddresses rs portCtr) with
    | error e => rw [hm] at hc; exact absurd hc (by simp)
    | ok pairs =>
      rw [hm] at hc
      have hcfields := Except.ok.inj hc
      subst hcfields
      refine ⟨?_, rfl⟩
      intro a ha
      obtain ⟨b, hb⟩ := mapExcept_ok_mem pairOfAddress _ pairs hm a ha
      have := pairOfAddress_ok_len a b hb
      rw [length_splitColon] at this
      omega

/-- Witness for C9: the single IPv6 node identity `::1` makes construction
raise `ValueError`. -/
theorem cluster_construction_requires_single_colon_witness :
    clusterInit ⟨["::1"], "c"⟩ 2222 = .error .valueError :=
  (cluster_construction_requires_single_colon ⟨["::1"], "c"⟩ 2222).1
    ⟨"::1", by decide, by decide⟩

/-! ### C10: dry-run handles poison termination -/

/-- C10 (confirmed, implicit).  With the dry-run toggle set
(`AUTODIST_DEBUG_REMOTE`), `remote_exec` returns `None`, and `start` still
appends it for every remote non-chief target; `terminate` then dereferences
`None.pid` — so after a dry-run `start` over any remote node, `terminate`
raises instead of completing its sweep (`AttributeError` when every real
handle is otherwise signalable). -/
theorem dry_run_start_breaks_terminate (chief : String) (cfg : StartCfg)
    (hosts addrs : List String) (a : String) (os : OSState)
    (hdbg : cfg.debugRemote = true) (ha : a ∈ addrs)
    (hok : ∀ b ∈ addrs, cfg.outcome b = .ok)
    (hnl : cfg.isLocalAddr ((splitColon a).headD "") = false)
    (hnc : isChiefAddr chief cfg ((splitColon a).headD "") = false) :
    none ∈ startHandles chief cfg hosts addrs ∧
    (terminateRun os (startHandles chief cfg hosts addrs)).2.isSome = true ∧
    ((∀ q ∈ startHandles chief cfg hosts addrs,
        q = none ∨ handleLive os q = true) →
      (terminateRun os (startHandles chief cfg hosts addrs)).2 =
        some .attributeError) := by
  have hmem : none ∈ startHandles chief cfg hosts addrs := by
    rw [startHandles_eq_launchLoop, launchLoop_handles]
    rw [List.takeWhile_eq_self_iff.2 (fun x hx => by simp [hok x hx])]
    refine List.mem_map.2 ⟨a, ha, ?_⟩
    simp only [launchHandle]
    rw [hnl, hnc, hdbg]
    simp
  exact ⟨hmem, terminateRun_err_of_none_mem os _ hmem,
    fun hlv => terminateRun_attr_of_none_mem os _ hmem hlv⟩

/-- Witness for C10: one remote non-chief node launched in dry-run mode. -/
theorem dry_run_start_breaks_terminate_witness :
    none ∈ startHandles "10.0.0.1"
        ⟨none, true, fun _ => false, fun _ => .ok, fun _ => 5⟩
        [] ["10.0.0.9:2222"] ∧
    (terminateRun ⟨fun _ => none, []⟩
        (startHandles "10.0.0.1"
          ⟨none, true, fun _ => false, fun _ => .ok, fun _ => 5⟩
          [] ["10.0.0.9:2222"])).2 = some .attributeError :=
  ⟨(dry_run_start_breaks_terminate "10.0.0.1"
      ⟨none, true, fun _ => false, fun _ => .ok, fun _ => 5⟩
      [] ["10.0.0.9:2222"] "10.0.0.9:2222" ⟨fun _ => none, []⟩
      rfl (by decide) (by decide) (by decide) (by decide)).1,
   (dry_run_start_breaks_terminate "10.0.0.1"
      ⟨none, true, fun _ => false, fun _ => .ok, fun _ => 5⟩
      [] ["10.0.0.9:2222"] "10.0.0.9:2222" ⟨fun _ => none, []⟩
      rfl (by decide) (by decide) (by decide) (by decide)).2.2 (by decide)⟩

end Autodist
